import Mathlib

/-!
Verification of the ASCII diagram generator (`generator/ascii_generator.py`).
The Python class `ASCIIDiagramGenerator` is embedded shallowly: the entity
dictionary becomes an association list, the mutable grid and its bounds become
an explicit `GridState` threaded through the drawing functions, Python ints
become `Int`, and the recursive collectors become structurally recursive
functions on the (non-negative part of the) depth.  The two breadth-first
level sweeps, which Python runs as `while` loops over a deque, are embedded
with an explicit fuel parameter that the pipeline instantiates with a bound
large enough for every queue the loops can build.
-/

namespace AsciiGen

/-- First-match association-list lookup, the embedding of Python `dict`
membership and indexing. -/
def alookup {α β : Type} [DecidableEq α] : List (α × β) → α → Option β
  | [], _ => none
  | p :: rest, k => if p.1 = k then some p.2 else alookup rest k

/-- Association-list insert-or-replace, the embedding of Python
`dict[k] = v`: an existing binding is replaced in place, a new key is
appended at the end (insertion order preserved). -/
def dinsert {α β : Type} [DecidableEq α] : List (α × β) → α → β → List (α × β)
  | [], k, v => [(k, v)]
  | p :: rest, k, v => if p.1 = k then (k, v) :: rest else p :: dinsert rest k v

/-- Set-insert on a duplicate-free list, the embedding of Python `set.add`. -/
def sadd {α : Type} [DecidableEq α] (l : List α) (a : α) : List α :=
  if a ∈ l then l else l ++ [a]

/-- Insert into a sorted list (used to embed Python `sorted`/`list.sort`). -/
def insertSorted {α : Type} (le : α → α → Bool) (a : α) : List α → List α
  | [] => [a]
  | b :: rest => if le a b then a :: b :: rest else b :: insertSorted le a rest

/-- Insertion sort, the embedding of Python `sorted`/`list.sort`. -/
def isort {α : Type} (le : α → α → Bool) (l : List α) : List α :=
  l.foldr (insertSorted le) []

/-- Strict lexicographic comparison of character lists by code point, the
order Python uses to compare strings. -/
def charListLt : List Char → List Char → Bool
  | _, [] => false
  | [], _ => true
  | a :: as, b :: bs =>
    if a.toNat < b.toNat then true
    else if b.toNat < a.toNat then false
    else charListLt as bs

/-- Strict string comparison by code point (Python `<` on strings). -/
def strLt (a b : String) : Bool := charListLt a.toList b.toList

/-- Lexicographic string comparison used by Python `list.sort`. -/
def strLe (a b : String) : Bool := strLt a b || a == b

/-- Integer comparison used by Python `sorted` on level indices. -/
def intLe (a b : Int) : Bool := decide (a ≤ b)

/-- Lexicographic comparison of string pairs used by Python `sorted` on
edge tuples. -/
def pairLe (a b : String × String) : Bool :=
  strLt a.1 b.1 || (a.1 == b.1 && (strLt a.2 b.2 || a.2 == b.2))

/-- Embedding of `analyzer/entity.py`: a code entity with its name, type,
source location and relationship sets (sets embedded as lists). -/
structure Entity where
  name : String
  type : String
  file_path : String
  line_number : Nat
  dependencies : List String
  used_by : List String
deriving DecidableEq

/-- The entity dictionary `self.entities` of the generator. -/
abbrev EntityGraph := List (String × Entity)

/-- The three mutable sets threaded through the recursive collectors:
`all_nodes`, `all_edges` and `visited_paths`. -/
structure CollectSt where
  nodes : List String
  edges : List (String × String)
  visited : List (String × String)
deriving DecidableEq

/-- The mutable drawing surface of the generator: the sparse grid dictionary
together with the four incrementally maintained bounds. -/
structure GridState where
  grid : List ((Int × Int) × Char)
  min_x : Int
  min_y : Int
  max_x : Int
  max_y : Int
deriving DecidableEq

/-- The state the constructor establishes and `generate` re-establishes when
it resets the grid for a new diagram. -/
def initGrid : GridState := ⟨[], 0, 0, 0, 0⟩

/-- Embedding of `_set_char`: write one character and update the bounds,
treating the write that makes the grid size 1 as the first character after a
reset. -/
def set_char (g : GridState) (x y : Int) (c : Char) : GridState :=
  let grid := dinsert g.grid (x, y) c
  if grid.length = 1 then
    { grid := grid, min_x := x, max_x := x + 1, min_y := y, max_y := y + 1 }
  else
    { grid := grid, min_x := min g.min_x x, max_x := max g.max_x (x + 1),
      min_y := min g.min_y y, max_y := max g.max_y (y + 1) }

/-- Embedding of `_draw_box`: draw the 3-row bordered box for an entity and
return its `(width, height)`. -/
def draw_box (g : GridState) (entity_name entity_type : String) (x_coord y_coord : Int) :
    (Int × Int) × GridState :=
  let content_text := " " ++ entity_name ++ " (" ++ entity_type ++ ") "
  let content_width : Int := content_text.length
  let box_width := content_width + 2
  let box_height : Int := 3
  let g := set_char g x_coord y_coord '+'
  let g := (List.range content_text.length).foldl
      (fun (a : GridState) (i : Nat) => set_char a (x_coord + 1 + (i : Int)) y_coord '-') g
  let g := set_char g (x_coord + content_width + 1) y_coord '+'
  let g := set_char g x_coord (y_coord + 1) '|'
  let g := (content_text.toList.enumFrom 0).foldl
      (fun (a : GridState) (p : Nat × Char) =>
        set_char a (x_coord + 1 + (p.1 : Int)) (y_coord + 1) p.2) g
  let g := set_char g (x_coord + content_width + 1) (y_coord + 1) '|'
  let g := set_char g x_coord (y_coord + 2) '+'
  let g := (List.range content_text.length).foldl
      (fun (a : GridState) (i : Nat) => set_char a (x_coord + 1 + (i : Int)) (y_coord + 2) '-') g
  let g := set_char g (x_coord + content_width + 1) (y_coord + 2) '+'
  ((box_width, box_height), g)

/-- Embedding of the placeholder-box branch of `generate` (drawn for a node
whose entity is missing from the entity dictionary); returns the recomputed
box width. -/
def draw_placeholder_box (g : GridState) (node : String) (x y : Int) : Int × GridState :=
  let placeholder_text := " " ++ node ++ " (details not found) "
  let content_width : Int := placeholder_text.length
  let g := set_char g x y '+'
  let g := (List.range placeholder_text.length).foldl
      (fun (a : GridState) (i : Nat) => set_char a (x + 1 + (i : Int)) y '-') g
  let g := set_char g (x + content_width + 1) y '+'
  let g := set_char g x (y + 1) '|'
  let g := (placeholder_text.toList.enumFrom 0).foldl
      (fun (a : GridState) (p : Nat × Char) =>
        set_char a (x + 1 + (p.1 : Int)) (y + 1) p.2) g
  let g := set_char g (x + content_width + 1) (y + 1) '|'
  let g := set_char g x (y + 2) '+'
  let g := (List.range placeholder_text.length).foldl
      (fun (a : GridState) (i : Nat) => set_char a (x + 1 + (i : Int)) (y + 2) '-') g
  let g := set_char g (x + content_width + 1) (y + 2) '+'
  (content_width + 2, g)

/-- Embedding of `_render_grid`: serialize the occupied bounding box,
unset cells defaulting to a space. -/
def render_grid (g : GridState) : String :=
  if g.grid.isEmpty then "(Empty Diagram - Grid is empty)"
  else
    String.intercalate "\n" ((List.range (g.max_y - g.min_y).toNat).map (fun j =>
      String.mk ((List.range (g.max_x - g.min_x).toNat).map (fun i =>
        (alookup g.grid (g.min_x + (i : Int), g.min_y + (j : Int))).getD ' '))))

/-- The loop body of `_draw_horizontal_segment` for one cell: blank cells
receive `-`, a `|` is upgraded to the joint `+`, an existing `-` or `+` is
left, any other glyph is skipped. -/
def h_seg_cell (y : Int) (check_collision : Bool) (a : GridState) (x_coord : Int) :
    GridState :=
  let existing_char := (alookup a.grid (x_coord, y)).getD ' '
  if check_collision ∧ existing_char ≠ ' ' then
    if existing_char = '|' then set_char a x_coord y '+'
    else if existing_char = '-' then a
    else if existing_char = '+' then a
    else a
  else set_char a x_coord y '-'

/-- Embedding of `_draw_horizontal_segment`: draw a horizontal run of `-`
cell by cell, with the collision policy of the source. -/
def draw_horizontal_segment (g : GridState) (x1 y x2 : Int) (check_collision : Bool) :
    GridState :=
  let start_x := min x1 x2
  let end_x := max x1 x2
  (List.range ((end_x - start_x).toNat + 1)).foldl (fun (a : GridState) (i : Nat) =>
    h_seg_cell y check_collision a (start_x + (i : Int))) g

/-- The loop body of `_draw_vertical_segment` for one cell: blank cells
receive `|`, a `-` is upgraded to the joint `+`, an existing `|` or `+` is
left, any other glyph is skipped. -/
def v_seg_cell (x : Int) (check_collision : Bool) (a : GridState) (y_coord : Int) :
    GridState :=
  let existing_char := (alookup a.grid (x, y_coord)).getD ' '
  if check_collision ∧ existing_char ≠ ' ' then
    if existing_char = '-' then set_char a x y_coord '+'
    else if existing_char = '|' then a
    else if existing_char = '+' then a
    else a
  else set_char a x y_coord '|'

/-- Embedding of `_draw_vertical_segment`: draw a vertical run of `|`
cell by cell, with the collision policy of the source. -/
def draw_vertical_segment (g : GridState) (x y1 y2 : Int) (check_collision : Bool) :
    GridState :=
  let start_y := min y1 y2
  let end_y := max y1 y2
  (List.range ((end_y - start_y).toNat + 1)).foldl (fun (a : GridState) (j : Nat) =>
    v_seg_cell x check_collision a (start_y + (j : Int))) g

/-- Embedding of `_draw_arrow`.  The Python source compares box centers with
float halves; centers are doubled here so the comparisons stay in `Int`
(every Python value involved is an exact multiple of one half).  `//` is
embedded as `Int.fdiv`, Python floor division. -/
def draw_arrow (g : GridState) (source_pos_dims target_pos_dims : Int × Int × Int × Int) :
    GridState :=
  let sx := source_pos_dims.1
  let sy := source_pos_dims.2.1
  let sw := source_pos_dims.2.2.1
  let sh := source_pos_dims.2.2.2
  let tx := target_pos_dims.1
  let ty := target_pos_dims.2.1
  let tw := target_pos_dims.2.2.1
  let th := target_pos_dims.2.2.2
  let dx2 := (2 * tx + tw) - (2 * sx + sw)
  let dy2 := (2 * ty + th) - (2 * sy + sh)
  let off : Int := 1
  if dy2.natAbs ≤ dx2.natAbs then
    if 0 < dx2 then
      let start_x := sx + sw - 1
      let start_y := sy + Int.fdiv sh 2
      let end_x := tx
      let end_y := ty + Int.fdiv th 2
      let mid_x := Int.fdiv (start_x + end_x) 2
      let g := draw_horizontal_segment g (start_x + off) start_y mid_x true
      let g := set_char g mid_x start_y '+'
      let g := draw_vertical_segment g mid_x start_y end_y true
      let g := set_char g mid_x end_y '+'
      let g := draw_horizontal_segment g mid_x end_y (end_x - off) true
      set_char g (end_x - off) end_y '>'
    else
      let start_x := sx
      let start_y := sy + Int.fdiv sh 2
      let end_x := tx + tw - 1
      let end_y := ty + Int.fdiv th 2
      let mid_x := Int.fdiv (start_x + end_x) 2
      let g := draw_horizontal_segment g (start_x - off) start_y mid_x true
      let g := set_char g mid_x start_y '+'
      let g := draw_vertical_segment g mid_x start_y end_y true
      let g := set_char g mid_x end_y '+'
      let g := draw_horizontal_segment g mid_x end_y (end_x + off) true
      set_char g (end_x + off) end_y '<'
  else
    if 0 < dy2 then
      let start_x := sx + Int.fdiv sw 2
      let start_y := sy + sh - 1
      let end_x := tx + Int.fdiv tw 2
      let end_y := ty
      let mid_y := Int.fdiv (start_y + end_y) 2
      let g := draw_vertical_segment g start_x (start_y + off) mid_y true
      let g := set_char g start_x mid_y '+'
      let g := draw_horizontal_segment g start_x mid_y end_x true
      let g := set_char g end_x mid_y '+'
      let g := draw_vertical_segment g end_x mid_y (end_y - off) true
      set_char g end_x (end_y - off) 'v'
    else
      let start_x := sx + Int.fdiv sw 2
      let start_y := sy
      let end_x := tx + Int.fdiv tw 2
      let end_y := ty + th - 1
      let mid_y := Int.fdiv (start_y + end_y) 2
      let g := draw_vertical_segment g start_x (start_y - off) mid_y true
      let g := set_char g start_x mid_y '+'
      let g := draw_horizontal_segment g start_x mid_y end_x true
      let g := set_char g end_x mid_y '+'
      let g := draw_vertical_segment g end_x mid_y (end_y + off) true
      set_char g end_x (end_y + off) '^'

/-- Embedding of `_collect_dependencies_recursive`.  The Python guard
`current_depth <= 0` together with the `current_depth - 1` recursion is
embedded by running on `Int.toNat` of the depth: a non-positive depth is
fuel `0` and returns the state unchanged. -/
def collect_dependencies_recursive (g : EntityGraph) : Nat → String → CollectSt → CollectSt
  | 0, _, st => st
  | n + 1, source_entity_name, st =>
    match alookup g source_entity_name with
    | none => st
    | some entity =>
      let st := { st with nodes := sadd st.nodes source_entity_name }
      entity.dependencies.foldl (fun acc dep_name =>
        if (alookup g dep_name).isNone then acc
        else if (source_entity_name, dep_name) ∈ acc.visited then acc
        else
          collect_dependencies_recursive g n dep_name
            { nodes := sadd acc.nodes dep_name,
              edges := sadd acc.edges (source_entity_name, dep_name),
              visited := sadd acc.visited (source_entity_name, dep_name) }) st

/-- Embedding of `_collect_callers_recursive`, symmetric over `used_by`,
sharing the same visited-paths set and orienting edges `(caller, target)`. -/
def collect_callers_recursive (g : EntityGraph) : Nat → String → CollectSt → CollectSt
  | 0, _, st => st
  | n + 1, target_entity_name, st =>
    match alookup g target_entity_name with
    | none => st
    | some entity =>
      let st := { st with nodes := sadd st.nodes target_entity_name }
      entity.used_by.foldl (fun acc caller_name =>
        if (alookup g caller_name).isNone then acc
        else if (caller_name, target_entity_name) ∈ acc.visited then acc
        else
          collect_callers_recursive g n caller_name
            { nodes := sadd acc.nodes caller_name,
              edges := sadd acc.edges (caller_name, target_entity_name),
              visited := sadd acc.visited (caller_name, target_entity_name) }) st

/-- The collection phase of `generate` (lines 164-174): seed the node set
with the focal entity, collect dependencies, then collect callers over the
shared visited-paths set. -/
def collectAll (g : EntityGraph) (entity_name : String) (depth : Int) : CollectSt :=
  let st0 : CollectSt := ⟨sadd [] entity_name, [], []⟩
  let st1 := collect_dependencies_recursive g depth.toNat entity_name st0
  collect_callers_recursive g depth.toNat entity_name st1

/-- One edge inspection of the dependency breadth-first sweep of `generate`
(lines 199-206), acting on the state `(queue, visited_bfs_dep, node_levels)`. -/
def depEdgeStep (all_nodes : List String) (depth : Int) (entity_name curr : String)
    (level : Int)
    (acc : List (String × Int) × List (String × Int) × List (String × Int))
    (e : String × String) :
    List (String × Int) × List (String × Int) × List (String × Int) :=
  if e.1 = curr then
    let new_level := level + 1
    if e.2 ∈ all_nodes then
      match alookup acc.2.1 e.2 with
      | some old =>
        if new_level < old then
          (acc.1 ++ (if (new_level.natAbs : Int) < depth ∨
                ((new_level.natAbs : Int) = depth ∧ e.2 = entity_name) then
              [(e.2, new_level)] else []),
           dinsert acc.2.1 e.2 new_level, dinsert acc.2.2 e.2 new_level)
        else acc
      | none =>
        (acc.1 ++ (if (new_level.natAbs : Int) < depth ∨
              ((new_level.natAbs : Int) = depth ∧ e.2 = entity_name) then
            [(e.2, new_level)] else []),
         dinsert acc.2.1 e.2 new_level, dinsert acc.2.2 e.2 new_level)
    else acc
  else acc

/-- The dependency breadth-first sweep of `generate` (the `while q_dep` loop,
lines 195-206), with an explicit fuel bounding the number of pops; returns
the final `(visited_bfs_dep, node_levels)`. -/
def runDepSweep (edges : List (String × String)) (all_nodes : List String)
    (depth : Int) (entity_name : String) :
    Nat → List (String × Int) → List (String × Int) → List (String × Int) →
    List (String × Int) × List (String × Int)
  | 0, _, vis, lvls => (vis, lvls)
  | _ + 1, [], vis, lvls => (vis, lvls)
  | f + 1, (curr, level) :: qrest, vis, lvls =>
    if depth ≤ (level.natAbs : Int) ∧ curr ≠ entity_name then
      runDepSweep edges all_nodes depth entity_name f qrest vis lvls
    else
      let r := edges.foldl (depEdgeStep all_nodes depth entity_name curr level)
          (qrest, vis, lvls)
      runDepSweep edges all_nodes depth entity_name f r.1 r.2.1 r.2.2

/-- One edge inspection of the caller breadth-first sweep of `generate`
(lines 220-227), acting on `(queue, visited_bfs_caller, node_levels)`. -/
def callerEdgeStep (all_nodes : List String) (depth : Int) (entity_name curr : String)
    (level : Int)
    (acc : List (String × Int) × List (String × Int) × List (String × Int))
    (e : String × String) :
    List (String × Int) × List (String × Int) × List (String × Int) :=
  if e.2 = curr then
    let new_level := level - 1
    if e.1 ∈ all_nodes then
      match alookup acc.2.1 e.1 with
      | some old =>
        if new_level.natAbs < old.natAbs then
          (acc.1 ++ (if (new_level.natAbs : Int) < depth ∨
                ((new_level.natAbs : Int) = depth ∧ e.1 = entity_name) then
              [(e.1, new_level)] else []),
           dinsert acc.2.1 e.1 new_level, dinsert acc.2.2 e.1 new_level)
        else acc
      | none =>
        (acc.1 ++ (if (new_level.natAbs : Int) < depth ∨
              ((new_level.natAbs : Int) = depth ∧ e.1 = entity_name) then
            [(e.1, new_level)] else []),
         dinsert acc.2.1 e.1 new_level, dinsert acc.2.2 e.1 new_level)
    else acc
  else acc

/-- The caller breadth-first sweep of `generate` (the `while q_caller` loop,
lines 216-227); returns the final `(visited_bfs_caller, node_levels)`. -/
def runCallerSweep (edges : List (String × String)) (all_nodes : List String)
    (depth : Int) (entity_name : String) :
    Nat → List (String × Int) → List (String × Int) → List (String × Int) →
    List (String × Int) × List (String × Int)
  | 0, _, vis, lvls => (vis, lvls)
  | _ + 1, [], vis, lvls => (vis, lvls)
  | f + 1, (curr, level) :: qrest, vis, lvls =>
    if depth ≤ (level.natAbs : Int) ∧ curr ≠ entity_name then
      runCallerSweep edges all_nodes depth entity_name f qrest vis lvls
    else
      let r := edges.foldl (callerEdgeStep all_nodes depth entity_name curr level)
          (qrest, vis, lvls)
      runCallerSweep edges all_nodes depth entity_name f r.1 r.2.1 r.2.2

/-- Fuel given to the two sweep loops; each node is appended to a queue at
most `depth` times beyond its first visit, so this bound always covers every
pop the Python `while` loops perform. -/
def bfsFuel (st : CollectSt) (depth : Int) : Nat :=
  (st.nodes.length + 1) * (depth.toNat + 1) + 1

/-- The level-assignment phase of `generate` (lines 185-232): dependency
sweep, caller sweep over the shared `node_levels`, then default level 0 for
any collected node missed by both sweeps. -/
def nodeLevelsOf (st : CollectSt) (entity_name : String) (depth : Int) :
    List (String × Int) :=
  let fuel := bfsFuel st depth
  let q0 : List (String × Int) := if entity_name ∈ st.nodes then [(entity_name, 0)] else []
  let r1 := runDepSweep st.edges st.nodes depth entity_name fuel q0
      [(entity_name, 0)] [(entity_name, 0)]
  let q1 : List (String × Int) := if entity_name ∈ st.nodes then [(entity_name, 0)] else []
  let r2 := runCallerSweep st.edges st.nodes depth entity_name fuel q1
      [(entity_name, 0)] r1.2
  st.nodes.foldl (fun l n => if (alookup l n).isSome then l else dinsert l n 0) r2.2

/-- The layout-and-box-drawing phase of `generate` (lines 234-305): group
nodes by level, sort within each level, compute box dimensions, column
x-coordinates and stacked y-coordinates, and draw every box (real or
placeholder); returns `entity_positions` together with the grid. -/
def place_boxes (g : EntityGraph) (st : CollectSt) (entity_name : String)
    (depth : Int) (gs0 : GridState) :
    List (String × (Int × Int × Int × Int)) × GridState :=
  let node_levels := nodeLevelsOf st entity_name depth
  let levelEntries := node_levels.filter (fun p => decide (p.1 ∈ st.nodes))
  let membersAt := fun (l : Int) =>
    isort strLe ((levelEntries.filter (fun p => decide (p.2 = l))).map (fun p => p.1))
  let box_dimensions := st.nodes.foldl (fun m n =>
      let name_display := match alookup g n with | some e => e.name | none => n
      let type_display := match alookup g n with | some e => e.type | none => "Unknown"
      let content_text := " " ++ name_display ++ " (" ++ type_display ++ ") "
      dinsert m n ((content_text.length : Int) + 2, (3 : Int))) []
  let max_widths_at_level := st.nodes.foldl (fun m n =>
      let box_w := ((alookup box_dimensions n).getD (0, 0)).1
      let lvl := (alookup node_levels n).getD 0
      dinsert m lvl (max ((alookup m lvl).getD 0) box_w)) []
  let sorted_level_indices := isort intLe (levelEntries.map (fun p => p.2)).dedup
  let level_x_coords := (sorted_level_indices.foldl
      (fun (acc : List (Int × Int) × Int) l =>
        ((l, acc.2) :: acc.1, acc.2 + (alookup max_widths_at_level l).getD 0 + 10))
      ([], 1)).1
  let drawn := sorted_level_indices.foldl
      (fun (acc : List (String × (Int × Int × Int × Int)) × GridState) l =>
        let x_pos := (alookup level_x_coords l).getD 0
        let inner := (membersAt l).foldl
            (fun (a : List (String × (Int × Int × Int × Int)) × GridState × Int) n =>
              let dims := (alookup box_dimensions n).getD (0, 0)
              match alookup g n with
              | some e =>
                let r := draw_box a.2.1 e.name e.type x_pos a.2.2
                (a.1 ++ [(n, (x_pos, a.2.2, dims.1, dims.2))], r.2, a.2.2 + dims.2 + 2)
              | none =>
                let r := draw_placeholder_box a.2.1 n x_pos a.2.2
                (a.1 ++ [(n, (x_pos, a.2.2, r.1, dims.2))], r.2, a.2.2 + dims.2 + 2))
            (acc.1, acc.2, 1)
        (inner.1, inner.2.1))
      ([], gs0)
  drawn

/-- The layout-and-draw phase of `generate` (lines 234-312): place and draw
every box, then draw every arrow in sorted edge order between boxes whose
endpoints both have recorded positions. -/
def layoutAndDraw (g : EntityGraph) (st : CollectSt) (entity_name : String)
    (depth : Int) (gs0 : GridState) : GridState :=
  let drawn := place_boxes g st entity_name depth gs0
  let sortedEdges := isort pairLe st.edges
  sortedEdges.foldl (fun gcur e =>
      match alookup drawn.1 e.1, alookup drawn.1 e.2 with
      | some sp, some tp => draw_arrow gcur sp tp
      | some _, none => gcur
      | none, some _ => gcur
      | none, none => gcur) drawn.2

/-- Embedding of `generate`: the not-found early return, the grid reset, the
collection, the dead empty-collection branch, layout and drawing, and the
final header assembly.  The incoming `GridState` models the generator
object's grid left over from any previous call; the returned `GridState` is
the object's grid after the call. -/
def generate (g : EntityGraph) (entity_name : String) (depth : Int)
    (gs : GridState) : String × GridState :=
  if (alookup g entity_name).isNone then
    ("Entity \x27" ++ entity_name ++ "\x27 not found", gs)
  else
    let gs0 := initGrid
    let st := collectAll g entity_name depth
    if st.nodes.isEmpty then
      ("ASCII Diagram for " ++ entity_name ++ " (depth " ++ toString depth ++ "):\n" ++
        String.mk (List.replicate 40 '-') ++
        "\n(No entities or relationships found to display)", gs0)
    else
      let gfinal := layoutAndDraw g st entity_name depth gs0
      let diagram_header :=
        "ASCII Diagram for " ++ entity_name ++ " (depth " ++ toString depth ++ "):"
      (diagram_header ++ "\n" ++ String.mk (List.replicate diagram_header.length '=') ++
        "\n\n" ++ render_grid gfinal, gfinal)

/-- A small constructor for concrete test entities. -/
def mkEnt (name : String) (deps used : List String) : Entity :=
  ⟨name, "class", "f.py", 1, deps, used⟩

/-- The linear chain A depends on B depends on C depends on D depends on E,
with the inverse used_by edges. -/
def chainG : EntityGraph :=
  [("A", mkEnt "A" ["B"] []), ("B", mkEnt "B" ["C"] ["A"]),
   ("C", mkEnt "C" ["D"] ["B"]), ("D", mkEnt "D" ["E"] ["C"]),
   ("E", mkEnt "E" [] ["D"])]

/-- The two-cycle: A depends on B and B depends on A, with the inverse
used_by edges. -/
def twoCycleG : EntityGraph :=
  [("A", mkEnt "A" ["B"] ["B"]), ("B", mkEnt "B" ["A"] ["A"])]

/-- The three-cycle F depends on X depends on Y depends on F, with the
inverse used_by edges.  Here X is both a direct dependency of F (distance 1)
and a transitive caller of F (distance 2). -/
def cyc3G : EntityGraph :=
  [("F", mkEnt "F" ["X"] ["Y"]), ("X", mkEnt "X" ["Y"] ["F"]),
   ("Y", mkEnt "Y" ["F"] ["X"])]

/-! ### Helper lemmas about the embedded container operations -/

theorem alookup_dinsert {α β : Type} [DecidableEq α] (l : List (α × β)) (k k' : α) (v : β) :
    alookup (dinsert l k v) k' = if k' = k then some v else alookup l k' := by
  induction l with
  | nil =>
    by_cases hk : k' = k
    · simp [dinsert, alookup, hk]
    · have hk2 : ¬k = k' := fun h => hk h.symm
      simp [dinsert, alookup, hk, hk2]
  | cons p rest ih =>
    simp only [dinsert]
    by_cases hpk : p.1 = k
    · rw [if_pos hpk]
      by_cases hk : k' = k
      · simp [alookup, hk]
      · rw [alookup, if_neg (fun h => hk h.symm), if_neg hk, alookup,
          if_neg (fun (h : p.1 = k') => hk (h ▸ hpk))]
    · rw [if_neg hpk]
      by_cases hp : p.1 = k'
      · rw [alookup, if_pos hp, if_neg (fun h => hpk (hp.trans h)), alookup, if_pos hp]
      · rw [alookup, if_neg hp, ih]
        by_cases hk : k' = k <;> simp [hk, alookup, hp]

theorem mem_sadd {α : Type} [DecidableEq α] (l : List α) (a b : α) :
    b ∈ sadd l a ↔ b ∈ l ∨ b = a := by
  unfold sadd
  by_cases h : a ∈ l
  · simp only [if_pos h]
    constructor
    · exact Or.inl
    · rintro (hb | rfl)
      · exact hb
      · exact h
  · simp [if_neg h]

theorem sadd_sub {α : Type} [DecidableEq α] (l : List α) (a b : α) (h : b ∈ l) :
    b ∈ sadd l a := (mem_sadd l a b).2 (Or.inl h)

theorem sadd_nodup {α : Type} [DecidableEq α] (l : List α) (a : α) (h : l.Nodup) :
    (sadd l a).Nodup := by
  unfold sadd
  by_cases ha : a ∈ l
  · simpa [if_pos ha]
  · rw [if_neg ha]
    simp [List.nodup_append, h, ha]

theorem foldl_preserves {α σ : Type} (P : σ → Prop) (f : σ → α → σ) :
    ∀ (l : List α) (s : σ), P s → (∀ s a, a ∈ l → P s → P (f s a)) → P (l.foldl f s) := by
  intro l
  induction l with
  | nil => intro s hs _; exact hs
  | cons a rest ih =>
    intro s hs hstep
    exact ih (f s a) (hstep s a (List.mem_cons_self a rest) hs)
      (fun s' b hb hP => hstep s' b (List.mem_cons_of_mem a hb) hP)

theorem set_char_lookup (g : GridState) (x y : Int) (c : Char) (k : Int × Int) :
    alookup (set_char g x y c).grid k = if k = (x, y) then some c else alookup g.grid k := by
  unfold set_char
  by_cases h : (dinsert g.grid (x, y) c).length = 1 <;>
    simp [h, alookup_dinsert]

theorem range_fill_lookup (x0 y : Int) (ch : Char) :
    ∀ (n : Nat) (g : GridState) (a b : Int),
    alookup (((List.range n)).foldl
        (fun (acc : GridState) (i : Nat) => set_char acc (x0 + (i : Int)) y ch) g).grid
        (a, b) =
      if b = y ∧ x0 ≤ a ∧ a < x0 + (n : Int) then some ch else alookup g.grid (a, b) := by
  intro n
  induction n with
  | zero =>
    intro g a b
    rw [List.range_zero, List.foldl_nil, if_neg]
    rintro ⟨_, h2, h3⟩
    omega
  | succ n ih =>
    intro g a b
    rw [List.range_succ, List.foldl_append, List.foldl_cons, List.foldl_nil,
      set_char_lookup, ih]
    simp only [Prod.mk.injEq]
    split_ifs <;> first | rfl | omega

theorem enum_fill_lookup (x0 y : Int) :
    ∀ (cs : List Char) (k : Nat) (g : GridState) (a b : Int),
    alookup ((cs.enumFrom k).foldl
        (fun (acc : GridState) (p : Nat × Char) =>
          set_char acc (x0 + (p.1 : Int)) y p.2) g).grid (a, b) =
      if b = y ∧ x0 + (k : Int) ≤ a ∧ a < x0 + (k : Int) + cs.length then
        some (cs.getD (a - (x0 + (k : Int))).toNat ' ')
      else alookup g.grid (a, b) := by
  intro cs
  induction cs with
  | nil =>
    intro k g a b
    rw [List.enumFrom, List.foldl_nil, if_neg]
    rintro ⟨_, h2, h3⟩
    simp only [List.length_nil] at h3
    omega
  | cons c rest ih =>
    intro k g a b
    rw [List.enumFrom, List.foldl_cons, ih (k + 1), set_char_lookup]
    simp only [Prod.mk.injEq, List.length_cons, Nat.cast_add, Nat.cast_one]
    split_ifs with h1 h2 h3 h4 h5 <;>
      first
        | rfl
        | omega
        | (rw [show (a - (x0 + (k : Int))).toNat =
              (a - (x0 + ((k : Int) + 1))).toNat + 1 from by omega,
            List.getD_cons_succ])
        | (rw [show (a - (x0 + (k : Int))).toNat = 0 from by omega,
            List.getD_cons_zero])

/-- The expected content of a drawn entity box, following the words of the
spec: a 3-row bordered rectangle with corner characters, horizontal borders,
vertical side borders, and the label text in the interior of the middle
row. -/
def boxCellSpec (content : String) (x y a b : Int) : Char :=
  if b = y ∨ b = y + 2 then
    if a = x ∨ a = x + (content.length : Int) + 1 then '+' else '-'
  else
    if a = x ∨ a = x + (content.length : Int) + 1 then '|'
    else content.toList.getD (a - (x + 1)).toNat ' '

set_option maxHeartbeats 1600000 in
theorem draw_box_grid_lookup (g : GridState) (en et : String) (x y a b : Int) :
    alookup ((draw_box g en et x y).2).grid (a, b) =
      if y ≤ b ∧ b ≤ y + 2 ∧ x ≤ a ∧
          a ≤ x + ((" " ++ en ++ " (" ++ et ++ ") ").length : Int) + 1 then
        some (boxCellSpec (" " ++ en ++ " (" ++ et ++ ") ") x y a b)
      else alookup g.grid (a, b) := by
  simp only [draw_box]
  rw [set_char_lookup, range_fill_lookup, set_char_lookup, set_char_lookup,
    enum_fill_lookup, set_char_lookup, set_char_lookup, range_fill_lookup, set_char_lookup]
  simp only [boxCellSpec, Prod.mk.injEq, Nat.cast_zero, add_zero,
    String.toList, String.length_data]
  split_ifs <;> first | rfl | omega

/-- Read `n` consecutive cells of a grid row back into a string, unset cells
defaulting to a space (the same convention `_render_grid` uses). -/
def read_row (g : GridState) (x y : Int) (n : Nat) : String :=
  String.mk ((List.range n).map
    (fun (i : Nat) => (alookup g.grid (x + (i : Int), y)).getD ' '))

theorem map_range_getD (l : List Char) (d : Char) :
    (List.range l.length).map (fun i => l.getD i d) = l := by
  apply List.ext_getElem
  · simp
  · intro i h1 h2
    simp only [List.getElem_map, List.getElem_range, List.getD_eq_getElem?_getD,
      List.getElem?_eq_getElem h2, Option.getD_some]

theorem draw_box_read_middle (g : GridState) (en et : String) (x y : Int) :
    read_row ((draw_box g en et x y).2) (x + 1) (y + 1)
        (" " ++ en ++ " (" ++ et ++ ") ").length =
      " " ++ en ++ " (" ++ et ++ ") " := by
  set ct := " " ++ en ++ " (" ++ et ++ ") " with hct
  have hld : ct.data.length = ct.length := String.length_data ct
  rw [read_row]
  have hmap : (List.range ct.length).map
      (fun (i : Nat) =>
        (alookup ((draw_box g en et x y).2).grid (x + 1 + (i : Int), y + 1)).getD ' ') =
      (List.range ct.length).map (fun (i : Nat) => ct.data.getD i ' ') := by
    apply List.map_congr_left
    intro i hi
    rw [List.mem_range] at hi
    rw [draw_box_grid_lookup, if_pos, boxCellSpec, if_neg, if_neg]
    · rw [Option.getD_some]
      have hidx : ((x + 1 + (i : Int)) - (x + 1)).toNat = i := by omega
      rw [hidx]
      rfl
    · rw [← hct]
      rintro (h | h) <;> omega
    · rintro (h | h) <;> omega
    · rw [← hct]
      exact ⟨by omega, by omega, by omega, by omega⟩
  rw [hmap]
  have : (List.range ct.length).map (fun (i : Nat) => ct.data.getD i ' ') = ct.data := by
    rw [← hld]
    exact map_range_getD ct.data ' '
  rw [this]

/-- The collision policy of the spec for one cell of a drawn segment:
a blank cell receives the segment character, a cell holding the
perpendicular line character is upgraded to the joint `+`, and every other
cell (the same line character, an existing joint, a box glyph or an
arrowhead) is left unchanged. -/
def segPolicySpec (seg perp : Char) (o : Option Char) : Option Char :=
  if o.getD ' ' = ' ' then some seg
  else if o.getD ' ' = perp then some '+'
  else o

theorem h_seg_cell_lookup (y : Int) (G : GridState) (xc a b : Int) :
    alookup (h_seg_cell y true G xc).grid (a, b) =
      if a = xc ∧ b = y then segPolicySpec '-' '|' (alookup G.grid (xc, y))
      else alookup G.grid (a, b) := by
  simp only [h_seg_cell, segPolicySpec]
  by_cases hab : a = xc ∧ b = y
  · have hk : (a, b) = (xc, y) := by rw [hab.1, hab.2]
    rw [if_pos hab]
    by_cases h0 : (alookup G.grid (xc, y)).getD ' ' = ' '
    · rw [if_pos h0, if_neg (fun hc => hc.2 h0), set_char_lookup, if_pos hk]
    · rw [if_neg h0, if_pos ⟨trivial, h0⟩]
      by_cases h1 : (alookup G.grid (xc, y)).getD ' ' = '|'
      · rw [if_pos h1, if_pos h1, set_char_lookup, if_pos hk]
      · rw [if_neg h1, if_neg h1]
        split_ifs <;> rw [hab.1, hab.2]
  · have hk : ¬((a, b) = (xc, y)) := by
      intro h
      rw [Prod.mk.injEq] at h
      exact hab h
    rw [if_neg hab]
    split_ifs <;> first | rfl | (rw [set_char_lookup, if_neg hk])

theorem v_seg_cell_lookup (x : Int) (G : GridState) (yc a b : Int) :
    alookup (v_seg_cell x true G yc).grid (a, b) =
      if a = x ∧ b = yc then segPolicySpec '|' '-' (alookup G.grid (x, yc))
      else alookup G.grid (a, b) := by
  simp only [v_seg_cell, segPolicySpec]
  by_cases hab : a = x ∧ b = yc
  · have hk : (a, b) = (x, yc) := by rw [hab.1, hab.2]
    rw [if_pos hab]
    by_cases h0 : (alookup G.grid (x, yc)).getD ' ' = ' '
    · rw [if_pos h0, if_neg (fun hc => hc.2 h0), set_char_lookup, if_pos hk]
    · rw [if_neg h0, if_pos ⟨trivial, h0⟩]
      by_cases h1 : (alookup G.grid (x, yc)).getD ' ' = '-'
      · rw [if_pos h1, if_pos h1, set_char_lookup, if_pos hk]
      · rw [if_neg h1, if_neg h1]
        split_ifs <;> rw [hab.1, hab.2]
  · have hk : ¬((a, b) = (x, yc)) := by
      intro h
      rw [Prod.mk.injEq] at h
      exact hab h
    rw [if_neg hab]
    split_ifs <;> first | rfl | (rw [set_char_lookup, if_neg hk])

theorem h_seg_fold_lookup (y sx : Int) :
    ∀ (n : Nat) (g : GridState) (a b : Int),
    alookup (((List.range n)).foldl
        (fun (acc : GridState) (i : Nat) => h_seg_cell y true acc (sx + (i : Int))) g).grid
        (a, b) =
      if b = y ∧ sx ≤ a ∧ a < sx + (n : Int) then
        segPolicySpec '-' '|' (alookup g.grid (a, b))
      else alookup g.grid (a, b) := by
  intro n
  induction n with
  | zero =>
    intro g a b
    rw [List.range_zero, List.foldl_nil, if_neg]
    rintro ⟨_, h2, h3⟩
    omega
  | succ n ih =>
    intro g a b
    rw [List.range_succ, List.foldl_append, List.foldl_cons, List.foldl_nil,
      h_seg_cell_lookup, ih, ih,
      if_neg (show ¬(y = y ∧ sx ≤ sx + (n : Int) ∧ sx + (n : Int) < sx + (n : Int)) from
        by omega)]
    split_ifs with h1 h2 h3 h4 h5 <;> first | rfl | omega | (rw [h1.1, h1.2])

theorem v_seg_fold_lookup (x sy : Int) :
    ∀ (n : Nat) (g : GridState) (a b : Int),
    alookup (((List.range n)).foldl
        (fun (acc : GridState) (j : Nat) => v_seg_cell x true acc (sy + (j : Int))) g).grid
        (a, b) =
      if a = x ∧ sy ≤ b ∧ b < sy + (n : Int) then
        segPolicySpec '|' '-' (alookup g.grid (a, b))
      else alookup g.grid (a, b) := by
  intro n
  induction n with
  | zero =>
    intro g a b
    rw [List.range_zero, List.foldl_nil, if_neg]
    rintro ⟨_, h2, h3⟩
    omega
  | succ n ih =>
    intro g a b
    rw [List.range_succ, List.foldl_append, List.foldl_cons, List.foldl_nil,
      v_seg_cell_lookup, ih, ih,
      if_neg (show ¬(x = x ∧ sy ≤ sy + (n : Int) ∧ sy + (n : Int) < sy + (n : Int)) from
        by omega)]
    split_ifs with h1 h2 h3 h4 h5 <;> first | rfl | omega | (rw [h1.1, h1.2])

theorem draw_horizontal_segment_lookup (g : GridState) (x1 y x2 a b : Int) :
    alookup (draw_horizontal_segment g x1 y x2 true).grid (a, b) =
      if b = y ∧ min x1 x2 ≤ a ∧ a ≤ max x1 x2 then
        segPolicySpec '-' '|' (alookup g.grid (a, b))
      else alookup g.grid (a, b) := by
  have hmm : min x1 x2 ≤ max x1 x2 := min_le_max
  simp only [draw_horizontal_segment]
  rw [h_seg_fold_lookup]
  split_ifs with h1 h2 <;> first | rfl | omega

theorem draw_vertical_segment_lookup (g : GridState) (x y1 y2 a b : Int) :
    alookup (draw_vertical_segment g x y1 y2 true).grid (a, b) =
      if a = x ∧ min y1 y2 ≤ b ∧ b ≤ max y1 y2 then
        segPolicySpec '|' '-' (alookup g.grid (a, b))
      else alookup g.grid (a, b) := by
  have hmm : min y1 y2 ≤ max y1 y2 := min_le_max
  simp only [draw_vertical_segment]
  rw [v_seg_fold_lookup]
  split_ifs with h1 h2 <;> first | rfl | omega

/-! ### Invariants of the collection phase -/

/-- Every collected node and every endpoint of every collected edge is a key
of the entity dictionary. -/
def KeysOk (g : EntityGraph) (st : CollectSt) : Prop :=
  (∀ x ∈ st.nodes, (alookup g x).isSome) ∧
    (∀ e ∈ st.edges, (alookup g e.1).isSome ∧ (alookup g e.2).isSome)

/-- The three collection sets are duplicate-free (set semantics). -/
def NodupSt (st : CollectSt) : Prop :=
  st.nodes.Nodup ∧ st.edges.Nodup ∧ st.visited.Nodup

theorem collect_deps_preserves (g : EntityGraph) (P : CollectSt → Prop)
    (hsrc : ∀ (st : CollectSt) (name : String) (e : Entity), alookup g name = some e →
      P st → P { st with nodes := sadd st.nodes name })
    (hstep : ∀ (st : CollectSt) (name d : String) (e0 e : Entity),
      alookup g name = some e0 → alookup g d = some e →
      (name, d) ∉ st.visited → P st →
      P { nodes := sadd st.nodes d, edges := sadd st.edges (name, d),
          visited := sadd st.visited (name, d) }) :
    ∀ (n : Nat) (name : String) (st : CollectSt), P st →
      P (collect_dependencies_recursive g n name st) := by
  intro n
  induction n with
  | zero =>
    intro name st h
    simpa [collect_dependencies_recursive] using h
  | succ n ih =>
    intro name st h
    rw [collect_dependencies_recursive]
    rcases halo : alookup g name with _ | ent
    · exact h
    · apply foldl_preserves P
      · exact hsrc st name ent halo h
      · intro s d _ hs
        rcases halo2 : alookup g d with _ | e2
        · simp only [halo2, Option.isNone_none]
          rw [if_pos trivial]
          exact hs
        · by_cases hv : (name, d) ∈ s.visited
          · simp only [halo2, Option.isNone_some]
            rw [if_neg (by simp), if_pos hv]
            exact hs
          · simp only [halo2, Option.isNone_some]
            rw [if_neg (by simp), if_neg hv]
            exact ih d _ (hstep s name d ent e2 halo halo2 hv hs)

theorem collect_callers_preserves (g : EntityGraph) (P : CollectSt → Prop)
    (hsrc : ∀ (st : CollectSt) (name : String) (e : Entity), alookup g name = some e →
      P st → P { st with nodes := sadd st.nodes name })
    (hstep : ∀ (st : CollectSt) (name c : String) (e0 e : Entity),
      alookup g name = some e0 → alookup g c = some e →
      (c, name) ∉ st.visited → P st →
      P { nodes := sadd st.nodes c, edges := sadd st.edges (c, name),
          visited := sadd st.visited (c, name) }) :
    ∀ (n : Nat) (name : String) (st : CollectSt), P st →
      P (collect_callers_recursive g n name st) := by
  intro n
  induction n with
  | zero =>
    intro name st h
    simpa [collect_callers_recursive] using h
  | succ n ih =>
    intro name st h
    rw [collect_callers_recursive]
    rcases halo : alookup g name with _ | ent
    · exact h
    · apply foldl_preserves P
      · exact hsrc st name ent halo h
      · intro s c _ hs
        rcases halo2 : alookup g c with _ | e2
        · simp only [halo2, Option.isNone_none]
          rw [if_pos trivial]
          exact hs
        · by_cases hv : (c, name) ∈ s.visited
          · simp only [halo2, Option.isNone_some]
            rw [if_neg (by simp), if_pos hv]
            exact hs
          · simp only [halo2, Option.isNone_some]
            rw [if_neg (by simp), if_neg hv]
            exact ih c _ (hstep s name c ent e2 halo halo2 hv hs)

theorem collectAll_keys (g : EntityGraph) (entity_name : String) (depth : Int)
    (e0 : Entity) (hfocal : alookup g entity_name = some e0) :
    KeysOk g (collectAll g entity_name depth) := by
  have hstart : KeysOk g ⟨sadd [] entity_name, [], []⟩ := by
    constructor
    · intro x hx
      rcases (mem_sadd [] entity_name x).1 hx with h | rfl
      · cases h
      · rw [hfocal]; rfl
    · intro e he
      cases he
  have hsrc : ∀ (st : CollectSt) (name : String) (e : Entity), alookup g name = some e →
      KeysOk g st → KeysOk g { st with nodes := sadd st.nodes name } := by
    intro st name e hn hst
    refine ⟨?_, hst.2⟩
    intro x hx
    rcases (mem_sadd st.nodes name x).1 hx with h | rfl
    · exact hst.1 x h
    · rw [hn]; rfl
  have hdep : ∀ (st : CollectSt) (name d : String) (e0d e : Entity),
      alookup g name = some e0d → alookup g d = some e →
      (name, d) ∉ st.visited → KeysOk g st →
      KeysOk g { nodes := sadd st.nodes d, edges := sadd st.edges (name, d),
                 visited := sadd st.visited (name, d) } := by
    intro st name d e0d e hn hd _ hst
    constructor
    · intro x hx
      rcases (mem_sadd st.nodes d x).1 hx with h | rfl
      · exact hst.1 x h
      · rw [hd]; rfl
    · intro ed hed
      rcases (mem_sadd st.edges (name, d) ed).1 hed with h | rfl
      · exact hst.2 ed h
      · exact ⟨by rw [hn]; rfl, by rw [hd]; rfl⟩
  have hcall : ∀ (st : CollectSt) (name c : String) (e0c e : Entity),
      alookup g name = some e0c → alookup g c = some e →
      (c, name) ∉ st.visited → KeysOk g st →
      KeysOk g { nodes := sadd st.nodes c, edges := sadd st.edges (c, name),
                 visited := sadd st.visited (c, name) } := by
    intro st name c e0c e hn hc _ hst
    constructor
    · intro x hx
      rcases (mem_sadd st.nodes c x).1 hx with h | rfl
      · exact hst.1 x h
      · rw [hc]; rfl
    · intro ed hed
      rcases (mem_sadd st.edges (c, name) ed).1 hed with h | rfl
      · exact hst.2 ed h
      · exact ⟨by rw [hc]; rfl, by rw [hn]; rfl⟩
  unfold collectAll
  exact collect_callers_preserves g (KeysOk g) hsrc hcall _ _ _
    (collect_deps_preserves g (KeysOk g) hsrc hdep _ _ _ hstart)

theorem collect_deps_nodup (g : EntityGraph) (n : Nat) (name : String) (st : CollectSt)
    (h : NodupSt st) : NodupSt (collect_dependencies_recursive g n name st) := by
  refine collect_deps_preserves g NodupSt ?_ ?_ n name st h
  · intro st name e _ hst
    exact ⟨sadd_nodup _ _ hst.1, hst.2.1, hst.2.2⟩
  · intro st name d e0 e _ _ _ hst
    exact ⟨sadd_nodup _ _ hst.1, sadd_nodup _ _ hst.2.1, sadd_nodup _ _ hst.2.2⟩

theorem collect_callers_nodup (g : EntityGraph) (n : Nat) (name : String) (st : CollectSt)
    (h : NodupSt st) : NodupSt (collect_callers_recursive g n name st) := by
  refine collect_callers_preserves g NodupSt ?_ ?_ n name st h
  · intro st name e _ hst
    exact ⟨sadd_nodup _ _ hst.1, hst.2.1, hst.2.2⟩
  · intro st name c e0 e _ _ _ hst
    exact ⟨sadd_nodup _ _ hst.1, sadd_nodup _ _ hst.2.1, sadd_nodup _ _ hst.2.2⟩

theorem collectAll_nodup (g : EntityGraph) (entity_name : String) (depth : Int) :
    NodupSt (collectAll g entity_name depth) := by
  unfold collectAll
  exact collect_callers_nodup g _ _ _
    (collect_deps_nodup g _ _ _ ⟨List.nodup_singleton entity_name, List.nodup_nil,
      List.nodup_nil⟩)

theorem collectAll_focal_mem (g : EntityGraph) (entity_name : String) (depth : Int) :
    entity_name ∈ (collectAll g entity_name depth).nodes := by
  unfold collectAll
  refine collect_callers_preserves g (fun st => entity_name ∈ st.nodes) ?_ ?_ _ _ _
    (collect_deps_preserves g (fun st => entity_name ∈ st.nodes) ?_ ?_ _ _ _ ?_)
  · intro st name e _ hst
    exact sadd_sub _ _ _ hst
  · intro st name c e0 e _ _ _ hst
    exact sadd_sub _ _ _ hst
  · intro st name e _ hst
    exact sadd_sub _ _ _ hst
  · intro st name d e0 e _ _ _ hst
    exact sadd_sub _ _ _ hst
  · exact List.mem_singleton_self entity_name

/-! ### Monotonicity of the per-sweep visited maps -/

/-- `v2` refines `v1` downwards: every binding of `v1` is still bound in
`v2`, to a value that is less than or equal. -/
def VisLe (v1 v2 : List (String × Int)) : Prop :=
  ∀ n x, alookup v1 n = some x → ∃ y, alookup v2 n = some y ∧ y ≤ x

/-- `v2` refines `v1` towards smaller absolute values. -/
def VisAbsLe (v1 v2 : List (String × Int)) : Prop :=
  ∀ n x, alookup v1 n = some x → ∃ y, alookup v2 n = some y ∧ y.natAbs ≤ x.natAbs

theorem visLe_refl (v : List (String × Int)) : VisLe v v :=
  fun _ x hx => ⟨x, hx, le_refl x⟩

theorem visLe_trans {v1 v2 v3 : List (String × Int)} (h12 : VisLe v1 v2)
    (h23 : VisLe v2 v3) : VisLe v1 v3 := by
  intro n x hx
  obtain ⟨y, hy, hxy⟩ := h12 n x hx
  obtain ⟨z, hz, hyz⟩ := h23 n y hy
  exact ⟨z, hz, le_trans hyz hxy⟩

theorem visAbsLe_refl (v : List (String × Int)) : VisAbsLe v v :=
  fun _ x hx => ⟨x, hx, Nat.le_refl x.natAbs⟩

theorem visAbsLe_trans {v1 v2 v3 : List (String × Int)} (h12 : VisAbsLe v1 v2)
    (h23 : VisAbsLe v2 v3) : VisAbsLe v1 v3 := by
  intro n x hx
  obtain ⟨y, hy, hxy⟩ := h12 n x hx
  obtain ⟨z, hz, hyz⟩ := h23 n y hy
  exact ⟨z, hz, Nat.le_trans hyz hxy⟩

theorem depEdgeStep_visLe (all_nodes : List String) (depth : Int)
    (entity_name curr : String) (level : Int)
    (acc : List (String × Int) × List (String × Int) × List (String × Int))
    (e : String × String) :
    VisLe acc.2.1 (depEdgeStep all_nodes depth entity_name curr level acc e).2.1 := by
  unfold depEdgeStep
  by_cases h1 : e.1 = curr
  · rw [if_pos h1]
    by_cases h2 : e.2 ∈ all_nodes
    · rw [if_pos h2]
      rcases hocc : alookup acc.2.1 e.2 with _ | old <;> dsimp only
      · intro n x hx
        refine ⟨x, ?_, le_refl x⟩
        rw [alookup_dinsert, if_neg]
        · exact hx
        · rintro rfl
          rw [hx] at hocc
          cases hocc
      · by_cases h3 : level + 1 < old
        · rw [if_pos h3]
          intro n x hx
          by_cases hn : n = e.2
          · subst hn
            rw [hx] at hocc
            injection hocc with hocc
            refine ⟨level + 1, ?_, ?_⟩
            · rw [alookup_dinsert, if_pos rfl]
            · omega
          · exact ⟨x, by rw [alookup_dinsert, if_neg hn]; exact hx, le_refl x⟩
        · rw [if_neg h3]
          exact visLe_refl _
    · rw [if_neg h2]
      exact visLe_refl _
  · rw [if_neg h1]
    exact visLe_refl _

theorem callerEdgeStep_visAbsLe (all_nodes : List String) (depth : Int)
    (entity_name curr : String) (level : Int)
    (acc : List (String × Int) × List (String × Int) × List (String × Int))
    (e : String × String) :
    VisAbsLe acc.2.1 (callerEdgeStep all_nodes depth entity_name curr level acc e).2.1 := by
  unfold callerEdgeStep
  by_cases h1 : e.2 = curr
  · rw [if_pos h1]
    by_cases h2 : e.1 ∈ all_nodes
    · rw [if_pos h2]
      rcases hocc : alookup acc.2.1 e.1 with _ | old <;> dsimp only
      · intro n x hx
        refine ⟨x, ?_, Nat.le_refl x.natAbs⟩
        rw [alookup_dinsert, if_neg]
        · exact hx
        · rintro rfl
          rw [hx] at hocc
          cases hocc
      · by_cases h3 : (level - 1).natAbs < old.natAbs
        · rw [if_pos h3]
          intro n x hx
          by_cases hn : n = e.1
          · subst hn
            rw [hx] at hocc
            injection hocc with hocc
            refine ⟨level - 1, ?_, ?_⟩
            · rw [alookup_dinsert, if_pos rfl]
            · subst hocc
              omega
          · exact ⟨x, by rw [alookup_dinsert, if_neg hn]; exact hx, Nat.le_refl x.natAbs⟩
        · rw [if_neg h3]
          exact visAbsLe_refl _
    · rw [if_neg h2]
      exact visAbsLe_refl _
  · rw [if_neg h1]
    exact visAbsLe_refl _

theorem foldl_dep_visLe (all_nodes : List String) (depth : Int)
    (entity_name curr : String) (level : Int) :
    ∀ (l : List (String × String))
      (acc : List (String × Int) × List (String × Int) × List (String × Int)),
      VisLe acc.2.1 ((l.foldl (depEdgeStep all_nodes depth entity_name curr level) acc)).2.1 := by
  intro l
  induction l with
  | nil => intro acc; exact visLe_refl _
  | cons e rest ih =>
    intro acc
    exact visLe_trans (depEdgeStep_visLe all_nodes depth entity_name curr level acc e)
      (ih _)

theorem foldl_caller_visAbsLe (all_nodes : List String) (depth : Int)
    (entity_name curr : String) (level : Int) :
    ∀ (l : List (String × String))
      (acc : List (String × Int) × List (String × Int) × List (String × Int)),
      VisAbsLe acc.2.1
        ((l.foldl (callerEdgeStep all_nodes depth entity_name curr level) acc)).2.1 := by
  intro l
  induction l with
  | nil => intro acc; exact visAbsLe_refl _
  | cons e rest ih =>
    intro acc
    exact visAbsLe_trans
      (callerEdgeStep_visAbsLe all_nodes depth entity_name curr level acc e) (ih _)

theorem runDepSweep_visLe (edges : List (String × String)) (all_nodes : List String)
    (depth : Int) (entity_name : String) :
    ∀ (fuel : Nat) (q vis lvls : List (String × Int)),
      VisLe vis (runDepSweep edges all_nodes depth entity_name fuel q vis lvls).1 := by
  intro fuel
  induction fuel with
  | zero => intro q vis lvls; exact visLe_refl vis
  | succ f ih =>
    intro q vis lvls
    cases q with
    | nil => exact visLe_refl vis
    | cons p rest =>
      obtain ⟨curr, level⟩ := p
      rw [runDepSweep]
      split_ifs
      · exact ih rest vis lvls
      · exact visLe_trans
          (foldl_dep_visLe all_nodes depth entity_name curr level edges (rest, vis, lvls))
          (ih _ _ _)

theorem runCallerSweep_visAbsLe (edges : List (String × String)) (all_nodes : List String)
    (depth : Int) (entity_name : String) :
    ∀ (fuel : Nat) (q vis lvls : List (String × Int)),
      VisAbsLe vis (runCallerSweep edges all_nodes depth entity_name fuel q vis lvls).1 := by
  intro fuel
  induction fuel with
  | zero => intro q vis lvls; exact visAbsLe_refl vis
  | succ f ih =>
    intro q vis lvls
    cases q with
    | nil => exact visAbsLe_refl vis
    | cons p rest =>
      obtain ⟨curr, level⟩ := p
      rw [runCallerSweep]
      split_ifs
      · exact ih rest vis lvls
      · exact visAbsLe_trans
          (foldl_caller_visAbsLe all_nodes depth entity_name curr level edges
            (rest, vis, lvls))
          (ih _ _ _)

/-- A singleton graph used to instantiate hypotheses of the general
theorems. -/
def singletonG : EntityGraph := [("A", mkEnt "A" [] [])]

/-- A graph whose dependency and used_by sets mention names absent from the
entity dictionary (dangling references). -/
def danglingG : EntityGraph :=
  [("A", ⟨"A", "class", "f.py", 1, ["B", "Missing"], ["Ghost"]⟩),
   ("B", ⟨"B", "class", "f.py", 2, [], ["A", "Phantom"]⟩)]

/-! ### The claims -/

/-- Claim C1: for every entity graph, focal name and depth, calling
`generate` twice with the identical graph and identical arguments returns
byte-identical strings; the grid and its bounds are reset at the start of
each `generate` call (to `initGrid`), so no state left in the generator by a
previous call influences the output.  The first conjunct states output
independence from the incoming grid state, the second states the literal
two-run property, with the second call running on the generator state the
first call left behind. -/
theorem c1_generate_deterministic (g : EntityGraph) (entity_name : String) (depth : Int)
    (s1 s2 s : GridState) :
    ((generate g entity_name depth s1).1 = (generate g entity_name depth s2).1) ∧
    ((generate g entity_name depth ((generate g entity_name depth s).2)).1 =
      (generate g entity_name depth s).1) := by
  constructor
  · simp only [generate]
    split_ifs <;> rfl
  · simp only [generate]
    split_ifs <;> rfl

/-- Claim C2: for every entity graph and every depth, if the focal name is
not a key of the graph, `generate` returns exactly the string
`Entity '<name>' not found` and leaves the generator state untouched; being
a total function of the embedding, it raises no exception. -/
theorem c2_not_found (g : EntityGraph) (name : String) (depth : Int) (s : GridState)
    (h : alookup g name = none) :
    generate g name depth s = ("Entity \x27" ++ name ++ "\x27 not found", s) := by
  simp [generate, h]

/-- Witness for C2 at the concrete input of the spec: an empty graph and the
focal name Ghost. -/
theorem c2_not_found_witness :
    generate ([] : EntityGraph) "Ghost" 1 initGrid =
      ("Entity \x27Ghost\x27 not found", initGrid) :=
  c2_not_found [] "Ghost" 1 initGrid rfl

/-- Claim C3: for every entity graph containing the focal entity,
`generate(focal, depth = 0)` collects exactly the node set containing only
the focal name and an empty edge set, and the rendered grid is exactly the
grid obtained by drawing the focal entity's box alone at position (1, 1) on
the reset grid — no connector is drawn. -/
theorem c3_depth_zero (g : EntityGraph) (e : Entity) (focal : String)
    (he : alookup g focal = some e) (s : GridState) :
    collectAll g focal 0 = ⟨[focal], [], []⟩ ∧
    layoutAndDraw g ⟨[focal], [], []⟩ focal 0 initGrid =
      (draw_box initGrid e.name e.type 1 1).2 ∧
    (generate g focal 0 s).1 =
      ("ASCII Diagram for " ++ focal ++ " (depth " ++ toString (0 : Int) ++ "):") ++
        "\n" ++
        String.mk (List.replicate
          ("ASCII Diagram for " ++ focal ++ " (depth " ++ toString (0 : Int) ++
            "):").length '=') ++
        "\n\n" ++
        render_grid (layoutAndDraw g (collectAll g focal 0) focal 0 initGrid) := by
  refine ⟨by rfl, ?_, ?_⟩
  · simp [layoutAndDraw, place_boxes, nodeLevelsOf, bfsFuel, runDepSweep, runCallerSweep,
      depEdgeStep, callerEdgeStep, he, sadd, dinsert, alookup, isort, insertSorted,
      intLe, strLe, pairLe, List.dedup_nil, List.dedup_cons_of_not_mem]
  · have hmem := collectAll_focal_mem g focal 0
    have hne : (collectAll g focal 0).nodes.isEmpty = false := by
      rcases hh : (collectAll g focal 0).nodes with _ | ⟨a, rest⟩
      · rw [hh] at hmem; cases hmem
      · rfl
    simp only [generate, he, Option.isNone_some, Bool.false_eq_true, if_false, hne]

/-- Witness for C3 on a concrete singleton graph. -/
theorem c3_depth_zero_witness :
    collectAll singletonG "A" 0 = ⟨["A"], [], []⟩ ∧
    layoutAndDraw singletonG ⟨["A"], [], []⟩ "A" 0 initGrid =
      (draw_box initGrid (mkEnt "A" [] []).name (mkEnt "A" [] []).type 1 1).2 ∧
    (generate singletonG "A" 0 initGrid).1 =
      ("ASCII Diagram for " ++ "A" ++ " (depth " ++ toString (0 : Int) ++ "):") ++
        "\n" ++
        String.mk (List.replicate
          ("ASCII Diagram for " ++ "A" ++ " (depth " ++ toString (0 : Int) ++
            "):").length '=') ++
        "\n\n" ++
        render_grid (layoutAndDraw singletonG (collectAll singletonG "A" 0) "A" 0
          initGrid) :=
  c3_depth_zero singletonG (mkEnt "A" [] []) "A" (by rfl) initGrid

set_option maxRecDepth 4000 in
/-- Claim C4: for the linear chain A → B → C → D → E with inverse used_by
edges, `generate(A, depth = 4)` collects exactly the five nodes A..E and the
four edges (A,B), (B,C), (C,D), (D,E); the level map assigns A level 0 and
B, C, D, E levels 1, 2, 3, 4; and the box-placement pass records five
distinct boxes at strictly increasing x-coordinates, one per level. -/
theorem c4_linear_chain :
    collectAll chainG "A" 4 =
      ⟨["A", "B", "C", "D", "E"],
       [("A", "B"), ("B", "C"), ("C", "D"), ("D", "E")],
       [("A", "B"), ("B", "C"), ("C", "D"), ("D", "E")]⟩ ∧
    nodeLevelsOf (collectAll chainG "A" 4) "A" 4 =
      [("A", 0), ("B", 1), ("C", 2), ("D", 3), ("E", 4)] ∧
    (place_boxes chainG (collectAll chainG "A" 4) "A" 4 initGrid).1 =
      [("A", (1, 1, 13, 3)), ("B", (24, 1, 13, 3)), ("C", (47, 1, 13, 3)),
       ("D", (70, 1, 13, 3)), ("E", (93, 1, 13, 3))] := by
  refine ⟨by decide, by decide, by decide⟩

set_option maxRecDepth 4000 in
/-- Claim C5, counterexample: on the three-cycle F → X → Y → F with
depth 3, X is discovered by the dependency sweep at level 1 (it is a direct
dependency of F, and the dependency sweep's own visited map pins it at 1),
yet the final level map assigns X the level -2 found by the caller sweep,
whose absolute value 2 is strictly larger than 1.  The caller sweep starts a
fresh visited map, so its first discovery of a node overwrites the
dependency-sweep level regardless of absolute value, refuting the claim that
a recorded level is replaced only by one of strictly smaller absolute value
across both sweeps. -/
theorem c5_cross_sweep_counterexample :
    ("F", "X") ∈ (collectAll cyc3G "F" 3).edges ∧
    alookup (runDepSweep (collectAll cyc3G "F" 3).edges (collectAll cyc3G "F" 3).nodes
        3 "F" (bfsFuel (collectAll cyc3G "F" 3) 3) [("F", 0)] [("F", 0)] [("F", 0)]).1
        "X" = some 1 ∧
    alookup (nodeLevelsOf (collectAll cyc3G "F" 3) "F" 3) "X" = some (-2) ∧
    (1 : Int).natAbs < ((-2 : Int)).natAbs := by
  refine ⟨by decide, by decide, by decide, by decide⟩

/-- Claim C5, amended: within each sweep, relative to that sweep's own
visited map, a recorded level is only ever replaced downwards — the
dependency sweep replaces a recorded level only by a strictly smaller one
(hence of smaller absolute value, dependency levels being non-negative), and
the caller sweep only by one of strictly smaller absolute value — so at the
end of a sweep every binding of its visited map is less than or equal to
(respectively of absolute value less than or equal to) any earlier binding;
the closest-absolute-distance rule does not extend across the two sweeps,
as the counterexample shows. -/
theorem c5_per_sweep_monotonic :
    (∀ (edges : List (String × String)) (all_nodes : List String) (depth : Int)
      (entity_name : String) (fuel : Nat) (q vis lvls : List (String × Int))
      (n : String) (x y : Int),
      alookup vis n = some x →
      alookup (runDepSweep edges all_nodes depth entity_name fuel q vis lvls).1 n =
        some y →
      y ≤ x) ∧
    (∀ (edges : List (String × String)) (all_nodes : List String) (depth : Int)
      (entity_name : String) (fuel : Nat) (q vis lvls : List (String × Int))
      (n : String) (x y : Int),
      alookup vis n = some x →
      alookup (runCallerSweep edges all_nodes depth entity_name fuel q vis lvls).1 n =
        some y →
      y.natAbs ≤ x.natAbs) := by
  constructor
  · intro edges all_nodes depth entity_name fuel q vis lvls n x y h1 h2
    obtain ⟨z, hz, hle⟩ :=
      runDepSweep_visLe edges all_nodes depth entity_name fuel q vis lvls n x h1
    rw [h2] at hz
    injection hz with hz
    omega
  · intro edges all_nodes depth entity_name fuel q vis lvls n x y h1 h2
    obtain ⟨z, hz, hle⟩ :=
      runCallerSweep_visAbsLe edges all_nodes depth entity_name fuel q vis lvls n x h1
    rw [h2] at hz
    injection hz with hz
    omega

/-- Witness for the amended C5 at a concrete sweep state. -/
theorem c5_per_sweep_monotonic_witness :
    ((0 : Int) ≤ 0) ∧ ((0 : Int).natAbs ≤ (0 : Int).natAbs) :=
  ⟨c5_per_sweep_monotonic.1 [] [] 0 "A" 1 [] [("A", 0)] [] "A" 0 0 (by decide)
      (by decide),
   c5_per_sweep_monotonic.2 [] [] 0 "A" 1 [] [("A", 0)] [] "A" 0 0 (by decide)
      (by decide)⟩

/-- Claim C6: for every entity graph (including graphs whose dependency or
used_by sets mention names absent from the graph), every name in the
collected node set and every endpoint of every collected edge is a key of
the entity graph; consequently, in the drawing pass, `alookup g` succeeds
for every collected node, so the placeholder branch for missing entities is
never entered during `generate`. -/
theorem c6_collected_names_are_keys (g : EntityGraph) (entity_name : String)
    (depth : Int) (e0 : Entity) (he : alookup g entity_name = some e0) :
    (∀ x ∈ (collectAll g entity_name depth).nodes, (alookup g x).isSome = true) ∧
    (∀ ed ∈ (collectAll g entity_name depth).edges,
      (alookup g ed.1).isSome = true ∧ (alookup g ed.2).isSome = true) :=
  collectAll_keys g entity_name depth e0 he

/-- Witness for C6 on a concrete graph with dangling references. -/
theorem c6_collected_names_are_keys_witness :
    (alookup danglingG "B").isSome = true :=
  (c6_collected_names_are_keys danglingG "A" 2 ⟨"A", "class", "f.py", 1,
      ["B", "Missing"], ["Ghost"]⟩ (by rfl)).1 "B" (by decide)

/-- Claim C7: for every entity name and kind and every starting grid,
drawing the entity's box and reading the grid back yields a rectangle
exactly 3 rows tall whose middle-row interior text equals exactly the label
text, with the border one character on each side; `draw_box` returns exactly
the pair of the total box width (interior length plus 2) and height 3, every
cell inside the 3-row rectangle holds exactly the corner, border or label
character described by `boxCellSpec`, every cell outside it is untouched,
and reading the middle row interior back returns the label string itself. -/
theorem c7_box_round_trip (g : GridState) (en et : String) (x y : Int) :
    ((draw_box g en et x y).1 =
      (((" " ++ en ++ " (" ++ et ++ ") ").length : Int) + 2, 3)) ∧
    (∀ a b : Int, alookup ((draw_box g en et x y).2).grid (a, b) =
      if y ≤ b ∧ b ≤ y + 2 ∧ x ≤ a ∧
          a ≤ x + ((" " ++ en ++ " (" ++ et ++ ") ").length : Int) + 1 then
        some (boxCellSpec (" " ++ en ++ " (" ++ et ++ ") ") x y a b)
      else alookup g.grid (a, b)) ∧
    read_row ((draw_box g en et x y).2) (x + 1) (y + 1)
        (" " ++ en ++ " (" ++ et ++ ") ").length =
      " " ++ en ++ " (" ++ et ++ ") " :=
  ⟨rfl, fun a b => draw_box_grid_lookup g en et x y a b, draw_box_read_middle g en et x y⟩

set_option maxRecDepth 10000 in
/-- Claim C8, counterexample: the cell (11, 1) holds the arrowhead glyph
`^`, yet drawing an arrow whose bend falls on that cell overwrites it with
the unconditional joint write of `_draw_arrow`, refuting the claim that a
cell occupied by an arrowhead is never overwritten while drawing an
arrow. -/
theorem c8_arrow_overwrites_arrowhead :
    alookup (set_char initGrid 11 1 '^').grid (11, 1) = some '^' ∧
    alookup (draw_arrow (set_char initGrid 11 1 '^') (0, 0, 4, 3) (20, 0, 4, 3)).grid
        (11, 1) = some '+' := by
  refine ⟨by decide, by decide⟩

/-- Claim C8, amended: while drawing the straight segments of an arrow
(`_draw_horizontal_segment` and `_draw_vertical_segment` with collision
checking on), every grid cell follows the stated policy — a blank cell
receives the segment character, a cell holding the perpendicular line
character is upgraded to the joint `+`, a cell holding the same line
character or an existing joint is left, and a cell holding any other glyph
(a box character or an arrowhead) is never overwritten; cells outside the
segment are untouched.  The bend joints and the arrowhead, however, are
written by `_draw_arrow` with unconditional `_set_char` calls and may
overwrite any glyph, as the counterexample shows. -/
theorem c8_segment_collision_policy :
    (∀ (g : GridState) (x1 y x2 a b : Int),
      alookup (draw_horizontal_segment g x1 y x2 true).grid (a, b) =
        if b = y ∧ min x1 x2 ≤ a ∧ a ≤ max x1 x2 then
          segPolicySpec '-' '|' (alookup g.grid (a, b))
        else alookup g.grid (a, b)) ∧
    (∀ (g : GridState) (x y1 y2 a b : Int),
      alookup (draw_vertical_segment g x y1 y2 true).grid (a, b) =
        if a = x ∧ min y1 y2 ≤ b ∧ b ≤ max y1 y2 then
          segPolicySpec '|' '-' (alookup g.grid (a, b))
        else alookup g.grid (a, b)) :=
  ⟨draw_horizontal_segment_lookup, draw_vertical_segment_lookup⟩

/-- Claim C9: collection terminates on every graph, including
self-referential and cyclic ones — in this embedding both collectors are
total functions defined by structural recursion on the depth, which is the
shallow form of the termination guarantee — the visited-paths discipline
keeps the three collection sets duplicate-free, so no (source, target) pair
is recorded twice, and on the two-cycle where A depends on B and B depends
on A (with inverse used_by edges), `generate(A, depth = 2)` collects exactly
the two edges (A,B) and (B,A), one per direction. -/
theorem c9_cycle_termination :
    (∀ (g : EntityGraph) (entity_name : String) (depth : Int),
      NodupSt (collectAll g entity_name depth)) ∧
    (collectAll twoCycleG "A" 2).edges = [("A", "B"), ("B", "A")] := by
  refine ⟨fun g entity_name depth => collectAll_nodup g entity_name depth, by decide⟩

/-- Claim C10: for every entity graph containing the focal entity and every
depth, the string returned by `generate` begins with the header line, then a
line of `=` repeated exactly the header's length, then one empty line, and
only then the rendered diagram grid. -/
theorem c10_header_framing (g : EntityGraph) (e : Entity) (entity_name : String)
    (depth : Int) (s : GridState) (he : alookup g entity_name = some e) :
    (generate g entity_name depth s).1 =
      ("ASCII Diagram for " ++ entity_name ++ " (depth " ++ toString depth ++ "):") ++
        "\n" ++
        String.mk (List.replicate
          ("ASCII Diagram for " ++ entity_name ++ " (depth " ++ toString depth ++
            "):").length '=') ++
        "\n\n" ++
        render_grid (layoutAndDraw g (collectAll g entity_name depth) entity_name depth
          initGrid) := by
  have hmem := collectAll_focal_mem g entity_name depth
  have hne : (collectAll g entity_name depth).nodes.isEmpty = false := by
    rcases hh : (collectAll g entity_name depth).nodes with _ | ⟨a, rest⟩
    · rw [hh] at hmem; cases hmem
    · rfl
  simp only [generate, he, Option.isNone_some, Bool.false_eq_true, if_false, hne]

/-- Witness for C10 at a concrete graph and depth. -/
theorem c10_header_framing_witness :
    (generate singletonG "A" 1 initGrid).1 =
      ("ASCII Diagram for " ++ "A" ++ " (depth " ++ toString (1 : Int) ++ "):") ++
        "\n" ++
        String.mk (List.replicate
          ("ASCII Diagram for " ++ "A" ++ " (depth " ++ toString (1 : Int) ++
            "):").length '=') ++
        "\n\n" ++
        render_grid (layoutAndDraw singletonG (collectAll singletonG "A" 1) "A" 1
          initGrid) :=
  c10_header_framing singletonG (mkEnt "A" [] []) "A" 1 initGrid (by rfl)

end AsciiGen
